import Mathlib

/-
  Shallow embedding of the MemoryCore repository (python).

  Modelling conventions:
  * timestamps are integers (seconds); `datetime.now(timezone.utc)` is passed
    in explicitly as a `now : Time` argument;
  * UUIDs are natural numbers; tenant ids are strings;
  * float vectors are lists of rationals (every Python float literal is a
    rational); the similarity score, which Python computes with `** 0.5`,
    lives in `ℝ` via `Real.sqrt`;
  * Python dicts are insertion-ordered association lists with unique keys
    (`dictGet` / `dictSet` / `dictPop` mirror `d.get`, `d[k] = v`, `d.pop`);
  * Python truthiness of optional arguments (`if content:`, `if ttl_days:`,
    `if memory.embedding:`) is modelled by the `pyTruthy*` helpers;
  * fallible operations return `Except`; each manager operation returns the
    resulting state alongside, so that "no write happened" is expressible;
  * the embedding collaborator is a deterministic function
    `String → Option (List ℚ)`; with a deterministic collaborator the
    three-attempt tenacity retry wrapper is equivalent to a single call,
    with `none` standing for failure of all attempts.
-/

namespace MemoryCore

/-- Timestamps, modelled as integer seconds since the epoch. -/
abbrev Time := Int

def secondsPerDay : Int := 86400

/-- `memorycore/core/memory.py`: `MemoryMetadata`. -/
structure MemoryMetadata where
  category : String := "general"
  tags : List String := []
  importance : String := "medium"
  custom_fields : List (String × String) := []
  deriving DecidableEq, Repr

/-- `memorycore/core/memory.py`: `MemoryRelationship`. -/
structure MemoryRelationship where
  target_id : Nat
  relationship_type : String := "related"
  strength : ℚ := 1
  deriving DecidableEq, Repr

/-- `memorycore/core/memory.py`: `MemoryVersion`. -/
structure MemoryVersion where
  version : Nat
  created_at : Time
  content : String
  changed_fields : List String := []
  deriving DecidableEq, Repr

/-- `memorycore/core/memory.py`: `Memory` (pydantic model). -/
structure Memory where
  id : Nat
  content : String
  metadata : MemoryMetadata := {}
  embedding : Option (List ℚ) := none
  tenant_id : String := "default"
  created_at : Time
  updated_at : Time
  expires_at : Option Time := none
  relationships : List MemoryRelationship := []
  versions : List MemoryVersion := []
  version : Nat := 1
  deriving DecidableEq, Repr

/-- `Memory.is_expired`: `expires_at is None → False`, else `now > expires_at`. -/
def Memory.is_expired (m : Memory) (now : Time) : Bool :=
  match m.expires_at with
  | none => false
  | some e => now > e

/-- `Memory.set_ttl(days)`: `expires_at = now + timedelta(days=days)`. -/
def Memory.set_ttl (m : Memory) (days : Int) (now : Time) : Memory :=
  { m with expires_at := some (now + days * secondsPerDay) }

/-- `Memory.create_version(changed_fields)`: append a `MemoryVersion` snapshot
of the current content, timestamped at the current `updated_at`; then
increment `version` and set `updated_at` to now. `changed_fields=None`
defaults to `["content"]`. -/
def Memory.create_version (m : Memory) (changed_fields : Option (List String))
    (now : Time) : Memory :=
  let cf := changed_fields.getD ["content"]
  { m with
    versions := m.versions ++
      [{ version := m.version, created_at := m.updated_at,
         content := m.content, changed_fields := cf }],
    version := m.version + 1,
    updated_at := now }

/-! ### Python helpers: dicts, truthiness, slicing -/

/-- `d.get(k)` on an association list. -/
def dictGet {κ α : Type} [DecidableEq κ] (l : List (κ × α)) (k : κ) : Option α :=
  match l with
  | [] => none
  | (k', v) :: rest => if k' = k then some v else dictGet rest k

/-- `d[k] = v`: replace in place if the key exists (insertion order kept),
else append at the end. -/
def dictSet {κ α : Type} [DecidableEq κ] (l : List (κ × α)) (k : κ) (v : α) :
    List (κ × α) :=
  match l with
  | [] => [(k, v)]
  | (k', v') :: rest =>
      if k' = k then (k, v) :: rest else (k', v') :: dictSet rest k v

/-- `d.pop(k, None)`: drop the entry with key `k` (keys are unique in a
Python dict, so dropping the first occurrence suffices). -/
def dictPop {κ α : Type} [DecidableEq κ] (l : List (κ × α)) (k : κ) :
    List (κ × α) :=
  match l with
  | [] => []
  | (k', v') :: rest => if k' = k then rest else (k', v') :: dictPop rest k

/-- Python `s.strip()`: drop leading and trailing whitespace (defined over
the character list so that it evaluates inside the kernel). -/
def pyStrip (s : String) : String :=
  ⟨(((s.data.dropWhile Char.isWhitespace).reverse.dropWhile Char.isWhitespace).reverse)⟩

/-- Truthiness of `str | None` (`None` and `""` are falsy). -/
def pyTruthyStr (s : Option String) : Bool :=
  match s with
  | none => false
  | some s => !s.isEmpty

/-- Truthiness of `int | None` (`None` and `0` are falsy). -/
def pyTruthyInt (i : Option Int) : Bool :=
  match i with
  | none => false
  | some n => n ≠ 0

/-- Truthiness of `list[float] | None` (`None` and `[]` are falsy). -/
def pyTruthyVec (e : Option (List ℚ)) : Bool :=
  match e with
  | none => false
  | some v => !v.isEmpty

/-- Clamp a Python slice index: negative indices count from the end,
everything is clamped into `[0, len]`. -/
def pyClampIndex (len : Nat) (i : Int) : Nat :=
  if i < 0 then (max ((len : Int) + i) 0).toNat else (min i (len : Int)).toNat

/-- Python `l[:stop]`. -/
def pySliceTo {α : Type} (l : List α) (stop : Int) : List α :=
  l.take (pyClampIndex l.length stop)

/-- Python `l[start:stop]`. -/
def pySlice {α : Type} (l : List α) (start stop : Int) : List α :=
  (l.take (pyClampIndex l.length stop)).drop (pyClampIndex l.length start)

/-! ### `memorycore/storage/base.py` and `memory_backend.py` -/

/-- `memorycore/storage/base.py`: `SearchResult` pairs a memory with a
similarity score (and optional backend metadata, defaulting to empty). -/
structure SearchResult where
  memory : Memory
  score : ℝ
  metadata : List (String × String) := []

/-- The recognized filter keys of `filters: dict[str, Any]`
(`"category"` and `"tags"`); `Option Filters` with `none` models a `None`
or empty (falsy) filters dict. -/
structure Filters where
  category : Option String := none
  tags : Option (List String) := none
  deriving DecidableEq, Repr

/-- The per-memory filter test shared by `_apply_filters` and
`_apply_filters_to_memories`: category must match exactly when present, and
the required tags must be a subset of the memory's tags. -/
def matchesFilters (f : Filters) (md : MemoryMetadata) : Bool :=
  (match f.category with
   | some c => md.category = c
   | none => true) &&
  (match f.tags with
   | some required_tags => required_tags.all (fun t => md.tags.contains t)
   | none => true)

/-- `InMemoryBackend._apply_filters`. -/
def apply_filters (results : List SearchResult) (f : Filters) :
    List SearchResult :=
  results.filter (fun r => matchesFilters f r.memory.metadata)

/-- `InMemoryBackend._apply_filters_to_memories`. -/
def apply_filters_to_memories (memories : List Memory) (f : Filters) :
    List Memory :=
  memories.filter (fun m => matchesFilters f m.metadata)

/-- The `if filters:` guard applied to search results (`None` / empty dict
is falsy: no filtering). -/
def applyFiltersOpt (results : List SearchResult) (filters : Option Filters) :
    List SearchResult :=
  match filters with
  | some f => apply_filters results f
  | none => results

/-- The `if filters:` guard applied to memory lists. -/
def applyFiltersOptM (memories : List Memory) (filters : Option Filters) :
    List Memory :=
  match filters with
  | some f => apply_filters_to_memories memories f
  | none => memories

/-- `sum(a * b for a, b in zip(vec1, vec2))`. -/
def dotProduct (v1 v2 : List ℚ) : ℚ :=
  (List.zipWith (· * ·) v1 v2).sum

/-- `sum(a * a for a in vec)`. -/
def sumSquares (v : List ℚ) : ℚ :=
  (v.map (fun a => a * a)).sum

/-- `sum(a * a for a in vec) ** 0.5`: the vector magnitude. -/
noncomputable def magnitude (v : List ℚ) : ℝ :=
  Real.sqrt ((sumSquares v : ℚ) : ℝ)

/-- The Euclidean norm in the spec's words: the square root of the sum of
squared components (to be compared with the code's `magnitude`). -/
noncomputable def euclideanNorm (v : List ℚ) : ℝ :=
  Real.sqrt ((v.map (fun a : ℚ => (a : ℝ) ^ 2)).sum)

/-- `InMemoryBackend._cosine_similarity`: `0.0` when either magnitude is
zero, else `dot / (magnitude1 * magnitude2)`. -/
noncomputable def cosine_similarity (vec1 vec2 : List ℚ) : ℝ :=
  if magnitude vec1 = 0 ∨ magnitude vec2 = 0 then 0
  else ((dotProduct vec1 vec2 : ℚ) : ℝ) / (magnitude vec1 * magnitude vec2)

/-- `memorycore/storage/memory_backend.py`: `InMemoryBackend` holds two
dicts keyed by `(memory id, tenant id)`. -/
structure InMemoryBackend where
  memories : List ((Nat × String) × Memory) := []
  embeddings : List ((Nat × String) × List ℚ) := []
  deriving DecidableEq

/-- `InMemoryBackend.save`: upsert under `(memory.id, memory.tenant_id)`;
the embedding dict is only written when `memory.embedding` is truthy. -/
def InMemoryBackend.save (st : InMemoryBackend) (memory : Memory) :
    InMemoryBackend :=
  let key := (memory.id, memory.tenant_id)
  let st' := { st with memories := dictSet st.memories key memory }
  if pyTruthyVec memory.embedding then
    { st' with embeddings := dictSet st'.embeddings key (memory.embedding.getD []) }
  else st'

/-- `InMemoryBackend.get`: dictionary lookup under `(memory_id, tenant_id)`. -/
def InMemoryBackend.get (st : InMemoryBackend) (memory_id : Nat)
    (tenant_id : String) : Option Memory :=
  dictGet st.memories (memory_id, tenant_id)

/-- `InMemoryBackend.delete`: pop from both dicts; absence is not an error. -/
def InMemoryBackend.delete (st : InMemoryBackend) (memory_id : Nat)
    (tenant_id : String) : InMemoryBackend :=
  { memories := dictPop st.memories (memory_id, tenant_id),
    embeddings := dictPop st.embeddings (memory_id, tenant_id) }

/-- The `for (mem_id, tenant), memory in self._memories.items()` loop of
`InMemoryBackend.search`: skip other tenants, score every memory whose
`embedding` is truthy. -/
noncomputable def searchCandidates
    (entries : List ((Nat × String) × Memory)) (query_embedding : List ℚ)
    (tenant_id : String) : List SearchResult :=
  match entries with
  | [] => []
  | ((_, tenant), memory) :: rest =>
      if tenant = tenant_id then
        match memory.embedding with
        | some v =>
            if v.isEmpty then searchCandidates rest query_embedding tenant_id
            else { memory := memory, score := cosine_similarity query_embedding v }
              :: searchCandidates rest query_embedding tenant_id
        | none => searchCandidates rest query_embedding tenant_id
      else searchCandidates rest query_embedding tenant_id

/-- `results.sort(key=lambda x: x.score, reverse=True)`: stable descending
sort by score. -/
noncomputable def sortByScoreDesc (results : List SearchResult) :
    List SearchResult :=
  results.mergeSort (fun a b => decide (b.score ≤ a.score))

/-- `InMemoryBackend.search` before the final `[:limit]` slice: candidates,
optional filters, stable descending sort. -/
noncomputable def InMemoryBackend.searchRanked (st : InMemoryBackend)
    (query_embedding : List ℚ) (tenant_id : String)
    (filters : Option Filters) : List SearchResult :=
  let results := searchCandidates st.memories query_embedding tenant_id
  let results := applyFiltersOpt results filters
  sortByScoreDesc results

/-- `InMemoryBackend.search`: ranked results truncated by Python slicing
`results[:limit]`. -/
noncomputable def InMemoryBackend.search (st : InMemoryBackend)
    (query_embedding : List ℚ) (tenant_id : String) (limit : Int)
    (filters : Option Filters) : List SearchResult :=
  pySliceTo (st.searchRanked query_embedding tenant_id filters) limit

/-- `InMemoryBackend.list`: tenant filter, optional filters, then the
Python slice `memories[offset : offset + limit]`. -/
def InMemoryBackend.list (st : InMemoryBackend) (tenant_id : String)
    (limit offset : Int) (filters : Option Filters) : List Memory :=
  let memories := (st.memories.filter (fun e => e.1.2 = tenant_id)).map Prod.snd
  let memories := applyFiltersOptM memories filters
  pySlice memories offset (offset + limit)

/-- `InMemoryBackend.count`: length of the tenant-and-filter matching set. -/
def InMemoryBackend.count (st : InMemoryBackend) (tenant_id : String)
    (filters : Option Filters) : Nat :=
  let memories := (st.memories.filter (fun e => e.1.2 = tenant_id)).map Prod.snd
  let memories := applyFiltersOptM memories filters
  memories.length

/-- `InMemoryBackend.close`: `self._memories.clear(); self._embeddings.clear()`. -/
def InMemoryBackend.close (_st : InMemoryBackend) : InMemoryBackend :=
  { memories := [], embeddings := [] }

/-- Well-formedness of a backend state: every stored entry's key agrees with
the memory's own `id` and `tenant_id` fields (which `save` guarantees, since
it keys by `(memory.id, memory.tenant_id)`). -/
def InMemoryBackend.WF (st : InMemoryBackend) : Prop :=
  ∀ e ∈ st.memories, e.2.id = e.1.1 ∧ e.2.tenant_id = e.1.2

/-! ### `memorycore/exceptions/` -/

/-- The exception taxonomy of `memorycore/exceptions/`: `invalidMemory` and
`invalidQuery` subclass `ValidationError`; the `storage*` constructors
subclass `StorageError`, with `storageNotFound` the not-found class. The
`embeddingError` constructor stands for `EmbeddingError` (a retried embedding
call that failed on every attempt). -/
inductive MCError where
  | invalidMemory (message : String) (field : String)
  | invalidQuery (message : String)
  | storageConnection (message : String)
  | storageOperation (message : String)
  | storageNotFound (message : String)
  | embeddingError (message : String)
  deriving DecidableEq, Repr

/-- `isinstance(e, ValidationError)`. -/
def MCError.isValidationError : MCError → Bool
  | .invalidMemory _ _ => true
  | .invalidQuery _ => true
  | _ => false

/-- `isinstance(e, StorageNotFoundError)`: the not-found error class. -/
def MCError.isNotFoundClass : MCError → Bool
  | .storageNotFound _ => true
  | _ => false

/-! ### `memorycore/events/` -/

/-- `memorycore/events/memory_events.py`: the four lifecycle events
published by the manager. -/
inductive MemoryEvent where
  | created (memory : Memory)
  | updated (memory : Memory) (previous_version : Nat)
  | deleted (memory_id : Nat) (tenant_id : String)
  | searched (query : String) (result_count : Nat) (tenant_id : String)
  deriving DecidableEq

/-- Handler identity: `list.remove(handler)` compares handlers by equality,
so handlers are modelled by an opaque numeric identity. -/
abbrev EventHandler := Nat

/-- `memorycore/events/base.py`: `SimpleEventBus` holds
`dict[str, list[EventHandler]]`. -/
structure SimpleEventBus where
  handlers : List (String × List EventHandler) := []
  deriving DecidableEq

/-- `SimpleEventBus.subscribe`: create the key with `[]` when missing, then
append the handler. -/
def SimpleEventBus.subscribe (bus : SimpleEventBus) (event_type : String)
    (handler : EventHandler) : SimpleEventBus :=
  let cur := (dictGet bus.handlers event_type).getD []
  { handlers := dictSet bus.handlers event_type (cur ++ [handler]) }

/-- Python `list.remove(x)`: delete the first occurrence, `none` when the
element is absent (where CPython raises `ValueError`). -/
def listRemoveFirst (l : List EventHandler) (x : EventHandler) :
    Option (List EventHandler) :=
  match l with
  | [] => none
  | y :: rest => if y = x then some rest else (listRemoveFirst rest x).map (y :: ·)

/-- The Python exception raised by `list.remove` on a missing element. -/
inductive PyError where
  | valueError
  deriving DecidableEq, Repr

/-- `SimpleEventBus.unsubscribe`: `if event_type in self._handlers:
self._handlers[event_type].remove(handler)` — a missing type key is skipped
silently, but `remove` on a list not containing the handler raises
`ValueError`. -/
def SimpleEventBus.unsubscribe (bus : SimpleEventBus) (event_type : String)
    (handler : EventHandler) : Except PyError SimpleEventBus :=
  match dictGet bus.handlers event_type with
  | some l =>
      match listRemoveFirst l handler with
      | some l' => Except.ok { handlers := dictSet bus.handlers event_type l' }
      | none => Except.error PyError.valueError
  | none => Except.ok bus

/-! ### `memorycore/core/memory_manager.py` -/

/-- `memorycore/config/settings.py`: the settings the manager reads. -/
structure Settings where
  tenant_id : String := "default"
  default_ttl_days : Option Int := none
  enable_versioning : Bool := true
  deriving DecidableEq, Repr

/-- The embedding collaborator behind `_generate_embedding_with_retry`:
deterministic, so the three tenacity attempts collapse to one call;
`none` models failure of every attempt (the final exception re-raised). -/
abbrev EmbedFn := String → Option (List ℚ)

/-- The manager-visible world: the reference backend plus the events
published on the bus so far. -/
structure ManagerState where
  storage : InMemoryBackend := {}
  published : List MemoryEvent := []
  deriving DecidableEq

/-- `tenant_id = tenant_id or self.settings.tenant_id` (Python `or`:
`None` and `""` both fall back to the configured default). -/
def resolveTenant (settings : Settings) (tenant_id : Option String) : String :=
  match tenant_id with
  | some t => if t = "" then settings.tenant_id else t
  | none => settings.tenant_id

namespace MemoryManager

/-- `MemoryManager.save`: validate non-empty content, build the memory,
apply TTL (explicit arg, else configured default; `0` is falsy), optionally
embed (failure swallowed), persist, publish `created`. -/
def save (settings : Settings) (embed : EmbedFn) (now : Time) (new_id : Nat)
    (content : String) (metadata : Option MemoryMetadata)
    (tenant_id : Option String) (generate_embedding : Bool)
    (ttl_days : Option Int) (st : ManagerState) :
    Except MCError Memory × ManagerState :=
  let tenant := resolveTenant settings tenant_id
  if pyStrip content = "" then
    (Except.error (MCError.invalidMemory "Memory content cannot be empty" "content"), st)
  else
    let memory : Memory :=
      { id := new_id, content := pyStrip content, metadata := metadata.getD {},
        tenant_id := tenant, created_at := now, updated_at := now }
    let memory :=
      if pyTruthyInt ttl_days then memory.set_ttl (ttl_days.getD 0) now
      else if pyTruthyInt settings.default_ttl_days then
        memory.set_ttl (settings.default_ttl_days.getD 0) now
      else memory
    let memory :=
      if generate_embedding then
        match embed content with
        | some v => { memory with embedding := some v }
        | none => memory
      else memory
    let storage := st.storage.save memory
    (Except.ok memory,
     { storage := storage,
       published := st.published ++ [MemoryEvent.created memory] })

/-- `MemoryManager.get`: tenant resolution then backend lookup; absence is
`none`, not an error. -/
def get (settings : Settings) (memory_id : Nat) (tenant_id : Option String)
    (st : ManagerState) : Option Memory :=
  st.storage.get memory_id (resolveTenant settings tenant_id)

/-- The `if content:` block of `MemoryManager.update`: an empty string is
falsy and skipped; whitespace-only content raises `InvalidMemoryError`;
otherwise the trimmed content replaces the old one and re-embedding is
attempted (failure swallowed with a warning). -/
def updateContentStep (memory : Memory) (content : Option String)
    (embed : EmbedFn) : Except MCError Memory :=
  match content with
  | some c =>
      if c.isEmpty then Except.ok memory
      else if pyStrip c = "" then
        Except.error (MCError.invalidMemory "Memory content cannot be empty" "content")
      else
        let m := { memory with content := pyStrip c }
        match embed c with
        | some v => Except.ok { m with embedding := some v }
        | none => Except.ok m
  | none => Except.ok memory

/-- The `if metadata:` block of `MemoryManager.update` (a pydantic model is
always truthy, so only `None` is skipped). -/
def updateMetadataStep (memory : Memory) (metadata : Option MemoryMetadata) :
    Memory :=
  match metadata with
  | some md => { memory with metadata := md }
  | none => memory

/-- The `changed_fields` list built by `MemoryManager.update`: `"content"`
when content was truthy, `"metadata"` when metadata was supplied. -/
def changedFieldsOf (content : Option String)
    (metadata : Option MemoryMetadata) : List String :=
  (if pyTruthyStr content then ["content"] else []) ++
  (if metadata.isSome then ["metadata"] else [])

/-- `MemoryManager.update`: load (not-found raises `InvalidMemoryError` with
`field="id"`), apply content/metadata changes, snapshot a version when
`enable_versioning`, persist, publish `updated` with the prior version. -/
def update (settings : Settings) (embed : EmbedFn) (now : Time)
    (memory_id : Nat) (content : Option String)
    (metadata : Option MemoryMetadata) (tenant_id : Option String)
    (st : ManagerState) : Except MCError Memory × ManagerState :=
  let tenant := resolveTenant settings tenant_id
  match st.storage.get memory_id tenant with
  | none => (Except.error (MCError.invalidMemory "Memory not found" "id"), st)
  | some memory0 =>
      let previous_version := memory0.version
      match updateContentStep memory0 content embed with
      | Except.error e => (Except.error e, st)
      | Except.ok memory1 =>
          let memory2 := updateMetadataStep memory1 metadata
          let memory3 :=
            if settings.enable_versioning then
              memory2.create_version (some (changedFieldsOf content metadata)) now
            else memory2
          (Except.ok memory3,
           { storage := st.storage.save memory3,
             published := st.published ++
               [MemoryEvent.updated memory3 previous_version] })

/-- `MemoryManager.delete`: backend delete (idempotent) then publish
`deleted`. -/
def delete (settings : Settings) (memory_id : Nat) (tenant_id : Option String)
    (st : ManagerState) : ManagerState :=
  let tenant := resolveTenant settings tenant_id
  { storage := st.storage.delete memory_id tenant,
    published := st.published ++ [MemoryEvent.deleted memory_id tenant] }

/-- `MemoryManager.search`: validate non-empty query, embed it (failure is
fatal), delegate to backend search, publish `searched` with the result
count. -/
noncomputable def search (settings : Settings) (embed : EmbedFn)
    (query : String) (tenant_id : Option String) (limit : Int)
    (filters : Option Filters) (st : ManagerState) :
    Except MCError (List SearchResult) × ManagerState :=
  let tenant := resolveTenant settings tenant_id
  if pyStrip query = "" then
    (Except.error (MCError.invalidQuery "Query cannot be empty"), st)
  else
    match embed query with
    | none => (Except.error (MCError.embeddingError "embedding failed"), st)
    | some query_embedding =>
        let results := st.storage.search query_embedding tenant limit filters
        (Except.ok results,
         { st with published := st.published ++
             [MemoryEvent.searched query results.length tenant] })

/-- `MemoryManager.list`: thin pass-through with tenant defaulting. -/
def list (settings : Settings) (tenant_id : Option String)
    (limit offset : Int) (filters : Option Filters) (st : ManagerState) :
    List Memory :=
  st.storage.list (resolveTenant settings tenant_id) limit offset filters

/-- `MemoryManager.count`: thin pass-through with tenant defaulting. -/
def count (settings : Settings) (tenant_id : Option String)
    (filters : Option Filters) (st : ManagerState) : Nat :=
  st.storage.count (resolveTenant settings tenant_id) filters

end MemoryManager

/-! ### Concrete fixtures used by witnesses and counterexamples -/

/-- A memory stored under tenant `"A"` with no embedding. -/
def memW : Memory :=
  { id := 1, content := "alpha", tenant_id := "A", created_at := 0, updated_at := 0 }

/-- A backend holding exactly `memW` under tenant `"A"`. -/
def stW : InMemoryBackend :=
  { memories := [((1, "A"), memW)], embeddings := [] }

/-- A memory with an embedding, used for search fixtures. -/
def memS1 : Memory :=
  { id := 1, content := "a", embedding := some [1], tenant_id := "t",
    created_at := 0, updated_at := 0 }

/-- A second memory with an embedding, used for search fixtures. -/
def memS2 : Memory :=
  { id := 2, content := "b", embedding := some [2], tenant_id := "t",
    created_at := 0, updated_at := 0 }

/-- A backend holding two embedded memories under tenant `"t"`. -/
def stS : InMemoryBackend :=
  { memories := [((1, "t"), memS1), ((2, "t"), memS2)],
    embeddings := [((1, "t"), [1]), ((2, "t"), [2])] }

/-- A memory at version 1 with empty history, stored under tenant `"t"`. -/
def memV : Memory :=
  { id := 1, content := "x", tenant_id := "t", created_at := 0, updated_at := 0 }

/-- Manager state holding exactly `memV`. -/
def stV : ManagerState :=
  { storage := { memories := [((1, "t"), memV)], embeddings := [] }, published := [] }

/-- Settings with tenant `"t"` (versioning enabled by default, as in the
source settings). -/
def settingsT : Settings := { tenant_id := "t" }

/-- Settings with versioning disabled. -/
def settingsNoVersioning : Settings :=
  { tenant_id := "t", enable_versioning := false }

/-- `memV` after a no-field update at time 5. -/
def memVafter : Memory := memV.create_version (some []) 5

/-- The manager state after the no-field update of `memV` at time 5. -/
def stVafter : ManagerState :=
  { storage := stV.storage.save memVafter,
    published := [MemoryEvent.updated memVafter 1] }

/-- An event bus with one handler registered for one type. -/
def busOne : SimpleEventBus := { handlers := [("memory_created", [1])] }

/-! ### Claim theorems -/

/-- Casting the rational sum of squares to `ℝ` gives the real sum of
squares. -/
theorem sumSquares_cast (v : List ℚ) :
    ((sumSquares v : ℚ) : ℝ) = (v.map (fun a : ℚ => (a : ℝ) ^ 2)).sum := by
  induction v with
  | nil => simp [sumSquares]
  | cons a rest ih =>
      have hstep : sumSquares (a :: rest) = a * a + sumSquares rest := by
        simp [sumSquares]
      simp only [List.map_cons, List.sum_cons]
      rw [hstep]
      push_cast
      rw [ih, sq]

/-- The code's `magnitude` is exactly the Euclidean norm of the spec. -/
theorem magnitude_eq_euclideanNorm (v : List ℚ) :
    magnitude v = euclideanNorm v := by
  unfold magnitude euclideanNorm
  rw [sumSquares_cast]

/-- C3: the score computed by `_cosine_similarity` equals
`dot(query, candidate)` divided by the product of the two Euclidean norms
whenever both magnitudes are nonzero, and equals exactly `0.0` (a returned
value, not an error) whenever either vector has zero magnitude. -/
theorem cosine_similarity_spec (vec1 vec2 : List ℚ) :
    ((magnitude vec1 = 0 ∨ magnitude vec2 = 0) →
      cosine_similarity vec1 vec2 = 0) ∧
    (magnitude vec1 ≠ 0 → magnitude vec2 ≠ 0 →
      cosine_similarity vec1 vec2 =
        ((dotProduct vec1 vec2 : ℚ) : ℝ) /
          (euclideanNorm vec1 * euclideanNorm vec2)) := by
  constructor
  · intro h
    unfold cosine_similarity
    rw [if_pos h]
  · intro h1 h2
    unfold cosine_similarity
    rw [if_neg (by push_neg; exact ⟨h1, h2⟩), magnitude_eq_euclideanNorm vec1,
      magnitude_eq_euclideanNorm vec2]

/-- Witness for C3 at the concrete vectors `[0]` and `[1]`. -/
theorem cosine_similarity_spec_witness :
    cosine_similarity [0] [1] = 0 ∧
    cosine_similarity [1] [1] =
      ((dotProduct [1] [1] : ℚ) : ℝ) /
        (euclideanNorm [1] * euclideanNorm [1]) := by
  have h0 : magnitude [(0 : ℚ)] = 0 := by
    unfold magnitude
    norm_num [sumSquares, Real.sqrt_zero]
  have h1 : magnitude [(1 : ℚ)] ≠ 0 := by
    unfold magnitude
    norm_num [sumSquares, Real.sqrt_one]
  exact ⟨(cosine_similarity_spec [0] [1]).1 (Or.inl h0),
         (cosine_similarity_spec [1] [1]).2 h1 h1⟩

/-- C8 counterexample: `close()` on the reference backend merely clears both
dicts: a subsequent `get` returns absence (`None`) rather than failing with
an operation-class error, a subsequent `save` succeeds and is visible to
`get`, and a subsequent `count` returns `0` — no operation fails. -/
theorem close_counterexample :
    ((InMemoryBackend.save {} memW).close.get 1 "A" = none) ∧
    (((InMemoryBackend.save {} memW).close.save memW).get 1 "A" = some memW) ∧
    ((InMemoryBackend.save {} memW).close.count "A" none = 0) :=
  ⟨rfl, rfl, rfl⟩

/-- C8 amended: after `close()` the reference backend behaves as a fresh
empty store — every operation still succeeds: `get` returns absence, `search`
and `list` return empty results, `count` returns 0, and `save` writes
normally. -/
theorem close_spec (st : InMemoryBackend) (memory_id : Nat) (tenant : String)
    (q : List ℚ) (limit offset : Int) (filters : Option Filters) (m : Memory) :
    st.close.get memory_id tenant = none ∧
    st.close.search q tenant limit filters = [] ∧
    st.close.list tenant limit offset filters = [] ∧
    st.close.count tenant filters = 0 ∧
    (st.close.save m).get m.id m.tenant_id = some m := by
  refine ⟨rfl, ?_, ?_, ?_, ?_⟩
  · unfold InMemoryBackend.close InMemoryBackend.search InMemoryBackend.searchRanked
    cases filters <;>
      simp [searchCandidates, applyFiltersOpt, apply_filters, sortByScoreDesc,
        pySliceTo]
  · unfold InMemoryBackend.close InMemoryBackend.list
    cases filters <;>
      simp [applyFiltersOptM, apply_filters_to_memories, pySlice]
  · unfold InMemoryBackend.close InMemoryBackend.count
    cases filters <;> simp [applyFiltersOptM, apply_filters_to_memories]
  · unfold InMemoryBackend.close InMemoryBackend.save InMemoryBackend.get
    cases hb : pyTruthyVec m.embedding <;> simp [hb, dictSet, dictGet]

/-- C7: `Memory.create_version` appends exactly one version record whose
content is the memory's current content and whose timestamp is the prior
`updated_at` (not the current time), then increments the live `version`
counter by one and advances `updated_at` to now; no other field of the
memory changes. -/
theorem create_version_spec (m : Memory) (changed_fields : Option (List String))
    (now : Time) :
    (m.create_version changed_fields now).versions =
      m.versions ++ [{ version := m.version, created_at := m.updated_at,
                       content := m.content,
                       changed_fields := changed_fields.getD ["content"] }] ∧
    (m.create_version changed_fields now).version = m.version + 1 ∧
    (m.create_version changed_fields now).updated_at = now ∧
    (m.create_version changed_fields now).id = m.id ∧
    (m.create_version changed_fields now).content = m.content ∧
    (m.create_version changed_fields now).metadata = m.metadata ∧
    (m.create_version changed_fields now).embedding = m.embedding ∧
    (m.create_version changed_fields now).tenant_id = m.tenant_id ∧
    (m.create_version changed_fields now).created_at = m.created_at ∧
    (m.create_version changed_fields now).expires_at = m.expires_at ∧
    (m.create_version changed_fields now).relationships = m.relationships :=
  ⟨rfl, rfl, rfl, rfl, rfl, rfl, rfl, rfl, rfl, rfl, rfl⟩

/-- C5: `MemoryManager.save` with content that is empty or whitespace-only
fails with a validation error (`InvalidMemoryError`, `field="content"`) and
the state — storage and published events — is returned completely
unchanged. -/
theorem save_empty_content_rejected (settings : Settings) (embed : EmbedFn)
    (now : Time) (new_id : Nat) (content : String)
    (metadata : Option MemoryMetadata) (tenant_id : Option String)
    (generate_embedding : Bool) (ttl_days : Option Int) (st : ManagerState)
    (h : pyStrip content = "") :
    MemoryManager.save settings embed now new_id content metadata tenant_id
        generate_embedding ttl_days st =
      (Except.error (MCError.invalidMemory "Memory content cannot be empty" "content"), st) ∧
    (MCError.invalidMemory "Memory content cannot be empty" "content").isValidationError = true := by
  refine ⟨?_, rfl⟩
  unfold MemoryManager.save
  rw [if_pos h]

/-- Witness for C5: both `save("")` and `save("   ")` are rejected with the
unchanged state, on the default settings and empty state. -/
theorem save_empty_content_rejected_witness :
    (MemoryManager.save {} (fun _ => none) 0 1 "   " none none true none {} =
      (Except.error (MCError.invalidMemory "Memory content cannot be empty" "content"), {}) ∧
     (MCError.invalidMemory "Memory content cannot be empty" "content").isValidationError = true) ∧
    (MemoryManager.save {} (fun _ => none) 0 1 "" none none true none {} =
      (Except.error (MCError.invalidMemory "Memory content cannot be empty" "content"), {}) ∧
     (MCError.invalidMemory "Memory content cannot be empty" "content").isValidationError = true) :=
  ⟨save_empty_content_rejected {} (fun _ => none) 0 1 "   " none none true none {} (by decide),
   save_empty_content_rejected {} (fun _ => none) 0 1 "" none none true none {} (by decide)⟩

/-- C6 counterexample: `update` on an id that does not exist raises
`InvalidMemoryError` with `field="id"` — a member of the validation-error
class (the same class used for empty content), not of the not-found class
`StorageNotFoundError`; so the claim that the error is of a not-found class
distinct from the validation class is false on the code. -/
theorem update_unknown_id_counterexample :
    (MemoryManager.update {} (fun _ => none) 0 1 none none none {}).1 =
      Except.error (MCError.invalidMemory "Memory not found" "id") ∧
    (MCError.invalidMemory "Memory not found" "id").isValidationError = true ∧
    (MCError.invalidMemory "Memory not found" "id").isNotFoundClass = false :=
  ⟨rfl, rfl, rfl⟩

/-- C6 amended: `update` on an id absent under the resolved tenant fails
with `InvalidMemoryError` (`field="id"`) — a validation-class error, not a
distinct not-found class — surfaced without retry and with the state
(storage and events) completely unchanged. -/
theorem update_unknown_id_spec (settings : Settings) (embed : EmbedFn)
    (now : Time) (memory_id : Nat) (content : Option String)
    (metadata : Option MemoryMetadata) (tenant_id : Option String)
    (st : ManagerState)
    (h : st.storage.get memory_id (resolveTenant settings tenant_id) = none) :
    MemoryManager.update settings embed now memory_id content metadata tenant_id st =
      (Except.error (MCError.invalidMemory "Memory not found" "id"), st) ∧
    (MCError.invalidMemory "Memory not found" "id").isValidationError = true ∧
    (MCError.invalidMemory "Memory not found" "id").isNotFoundClass = false := by
  refine ⟨?_, rfl, rfl⟩
  unfold MemoryManager.update
  simp only [h]

/-- Witness for the amended C6, on the empty state. -/
theorem update_unknown_id_spec_witness :
    MemoryManager.update {} (fun _ => none) 0 1 none none none {} =
      (Except.error (MCError.invalidMemory "Memory not found" "id"), {}) ∧
    (MCError.invalidMemory "Memory not found" "id").isValidationError = true ∧
    (MCError.invalidMemory "Memory not found" "id").isNotFoundClass = false :=
  update_unknown_id_spec {} (fun _ => none) 0 1 none none none {} rfl

/-- C2 counterexample: with versioning disabled, a successful metadata-only
`update` of `memV` (stored at version 1) succeeds and returns the memory
still at version 1 — `update` does not strictly increase `version`
unconditionally. -/
theorem update_version_counterexample :
    stV.storage.get 1 "t" = some memV ∧
    (MemoryManager.update settingsNoVersioning (fun _ => none) 5 1 none (some {})
        none stV).1 = Except.ok memV ∧
    memV.version = 1 :=
  ⟨rfl, rfl, rfl⟩

/-- C10: with versioning enabled, an `update` providing neither content nor
metadata still succeeds: it appends one version record with an empty
`changed_fields` list, increments `version` by one, advances `updated_at`
to now, persists the memory to storage, and publishes an `updated` event
carrying the prior version number. -/
theorem update_nofield_spec (settings : Settings) (embed : EmbedFn) (now : Time)
    (memory_id : Nat) (tenant_id : Option String) (st : ManagerState) (m : Memory)
    (hver : settings.enable_versioning = true)
    (hget : st.storage.get memory_id (resolveTenant settings tenant_id) = some m) :
    MemoryManager.update settings embed now memory_id none none tenant_id st =
      (Except.ok (m.create_version (some []) now),
       { storage := st.storage.save (m.create_version (some []) now),
         published := st.published ++
           [MemoryEvent.updated (m.create_version (some []) now) m.version] }) ∧
    (m.create_version (some []) now).versions =
      m.versions ++ [{ version := m.version, created_at := m.updated_at,
                       content := m.content, changed_fields := [] }] ∧
    (m.create_version (some []) now).version = m.version + 1 ∧
    (m.create_version (some []) now).updated_at = now := by
  refine ⟨?_, rfl, rfl, rfl⟩
  unfold MemoryManager.update
  simp only [hget, hver]
  rfl

/-- Witness for C10: the concrete no-field update of `memV` at time 5. -/
theorem update_nofield_spec_witness :
    MemoryManager.update settingsT (fun _ => none) 5 1 none none none stV =
      (Except.ok (memV.create_version (some []) 5),
       { storage := stV.storage.save (memV.create_version (some []) 5),
         published := stV.published ++
           [MemoryEvent.updated (memV.create_version (some []) 5) memV.version] }) ∧
    (memV.create_version (some []) 5).versions =
      memV.versions ++ [{ version := memV.version, created_at := memV.updated_at,
                          content := memV.content, changed_fields := [] }] ∧
    (memV.create_version (some []) 5).version = memV.version + 1 ∧
    (memV.create_version (some []) 5).updated_at = 5 :=
  update_nofield_spec settingsT (fun _ => none) 5 1 none stV memV rfl rfl

/-- The content step of `update` never touches `version`, `versions` or
`updated_at`. -/
theorem updateContentStep_preserves (memory : Memory) (content : Option String)
    (embed : EmbedFn) (m1 : Memory)
    (h : MemoryManager.updateContentStep memory content embed = Except.ok m1) :
    m1.version = memory.version ∧ m1.versions = memory.versions ∧
    m1.updated_at = memory.updated_at := by
  cases content with
  | none =>
      unfold MemoryManager.updateContentStep at h
      cases h; exact ⟨rfl, rfl, rfl⟩
  | some c =>
      simp only [MemoryManager.updateContentStep] at h
      by_cases hc : c.isEmpty = true
      · rw [if_pos hc] at h; cases h; exact ⟨rfl, rfl, rfl⟩
      · rw [if_neg hc] at h
        by_cases hs : pyStrip c = ""
        · rw [if_pos hs] at h; cases h
        · rw [if_neg hs] at h
          cases he : embed c with
          | some v => simp only [he] at h; cases h; exact ⟨rfl, rfl, rfl⟩
          | none => simp only [he] at h; cases h; exact ⟨rfl, rfl, rfl⟩

/-- The metadata step of `update` never touches `version` or `versions`. -/
theorem updateMetadataStep_preserves (m : Memory)
    (metadata : Option MemoryMetadata) :
    (MemoryManager.updateMetadataStep m metadata).version = m.version ∧
    (MemoryManager.updateMetadataStep m metadata).versions = m.versions := by
  cases metadata <;> exact ⟨rfl, rfl⟩

/-- C2 amended: with versioning enabled, every successful `update` strictly
increases `version` (by exactly one), and it preserves the invariant
`len(versions) = version - 1` (so after N updates from a fresh save the
history length is `version - 1`). With versioning disabled, `version` is
unchanged (see the counterexample). The hypothesis `1 ≤ m.version` reflects
the pydantic constraint `version: int = Field(ge=1)`. -/
theorem update_version_spec (settings : Settings) (embed : EmbedFn) (now : Time)
    (memory_id : Nat) (content : Option String)
    (metadata : Option MemoryMetadata) (tenant_id : Option String)
    (st st' : ManagerState) (m m' : Memory)
    (hver : settings.enable_versioning = true)
    (hget : st.storage.get memory_id (resolveTenant settings tenant_id) = some m)
    (hv1 : 1 ≤ m.version)
    (hok : MemoryManager.update settings embed now memory_id content metadata
      tenant_id st = (Except.ok m', st')) :
    m.version < m'.version ∧
    (m.versions.length = m.version - 1 →
      m'.versions.length = m'.version - 1) := by
  unfold MemoryManager.update at hok
  simp only [hget] at hok
  cases hstep : MemoryManager.updateContentStep m content embed with
  | error e => simp [hstep] at hok
  | ok m1 =>
      simp only [hstep] at hok
      rw [if_pos hver] at hok
      simp only [Prod.mk.injEq, Except.ok.injEq] at hok
      obtain ⟨hm', -⟩ := hok
      subst hm'
      obtain ⟨hpv, hpvs, -⟩ := updateContentStep_preserves m content embed m1 hstep
      obtain ⟨hqv, hqvs⟩ := updateMetadataStep_preserves m1 metadata
      constructor
      · simp only [Memory.create_version, hqv, hpv]
        omega
      · intro hlen
        simp only [Memory.create_version, List.length_append, hqv, hqvs, hpv,
          hpvs, hlen, List.length_cons, List.length_nil]
        omega

/-- Witness for the amended C2: the concrete no-field update of `memV`
(version 1, empty history) at time 5 under versioning-enabled settings. -/
theorem update_version_spec_witness :
    memV.version < memVafter.version ∧
    (memV.versions.length = memV.version - 1 →
      memVafter.versions.length = memVafter.version - 1) :=
  update_version_spec settingsT (fun _ => none) 5 1 none none none stV stVafter
    memV memVafter rfl rfl (by decide) rfl

/-- Python `list.remove` on a missing element has no removal to perform. -/
theorem listRemoveFirst_eq_none {l : List EventHandler} {x : EventHandler}
    (h : x ∉ l) : listRemoveFirst l x = none := by
  induction l with
  | nil => rfl
  | cons y rest ih =>
      simp only [List.mem_cons, not_or] at h
      obtain ⟨h1, h2⟩ := h
      unfold listRemoveFirst
      rw [if_neg (fun e => h1 e.symm), ih h2]
      rfl

/-- C9 counterexample: unsubscribing handler `2` from a type whose handler
list exists but does not contain it raises `ValueError` from `list.remove` —
it is not an error-free no-op. -/
theorem unsubscribe_counterexample :
    busOne.unsubscribe "memory_created" 2 = Except.error PyError.valueError :=
  rfl

/-- C9 amended: unsubscribing from an event type with no handler entry at
all is an error-free no-op leaving the registry unchanged; but unsubscribing
a handler that is not in the existing handler list of that type raises
`ValueError` (from `list.remove`). -/
theorem unsubscribe_spec (bus : SimpleEventBus) (event_type : String)
    (handler : EventHandler) :
    (dictGet bus.handlers event_type = none →
      bus.unsubscribe event_type handler = Except.ok bus) ∧
    (∀ l, dictGet bus.handlers event_type = some l → handler ∉ l →
      bus.unsubscribe event_type handler = Except.error PyError.valueError) := by
  constructor
  · intro h
    simp only [SimpleEventBus.unsubscribe, h]
  · intro l hl hmem
    simp only [SimpleEventBus.unsubscribe, hl, listRemoveFirst_eq_none hmem]

/-- Witness for the amended C9: the empty bus is unchanged; `busOne` with a
foreign handler raises. -/
theorem unsubscribe_spec_witness :
    SimpleEventBus.unsubscribe {} "t" 1 = Except.ok {} ∧
    busOne.unsubscribe "memory_created" 3 = Except.error PyError.valueError :=
  ⟨(unsubscribe_spec {} "t" 1).1 rfl,
   (unsubscribe_spec busOne "memory_created" 3).2 [1] rfl (by decide)⟩

/-- A successful `dictGet` exhibits a stored entry. -/
theorem dictGet_mem {κ α : Type} [DecidableEq κ] {l : List (κ × α)} {k : κ}
    {v : α} (h : dictGet l k = some v) : (k, v) ∈ l := by
  induction l with
  | nil => cases h
  | cons e rest ih =>
      obtain ⟨k', v'⟩ := e
      simp only [dictGet] at h
      by_cases hk : k' = k
      · rw [if_pos hk] at h
        simp only [Option.some.injEq] at h
        subst h
        subst hk
        exact List.mem_cons_self _ _
      · rw [if_neg hk] at h
        exact List.mem_cons_of_mem _ (ih h)

/-- Every candidate produced by the search loop belongs to the queried
tenant (given key/field agreement of the store). -/
theorem searchCandidates_tenant (q : List ℚ) (tenant_id : String) :
    ∀ entries : List ((Nat × String) × Memory),
      (∀ e ∈ entries, e.2.tenant_id = e.1.2) →
      ∀ r ∈ searchCandidates entries q tenant_id,
        r.memory.tenant_id = tenant_id := by
  intro entries
  induction entries with
  | nil => intro _ r hr; simp [searchCandidates] at hr
  | cons e rest ih =>
      intro hwf r hr
      obtain ⟨⟨mid, t⟩, memory⟩ := e
      have hmt : memory.tenant_id = t := (hwf _ (List.mem_cons_self _ _)).symm ▸ rfl
      have hrest : ∀ e ∈ rest, e.2.tenant_id = e.1.2 :=
        fun e he => hwf e (List.mem_cons_of_mem _ he)
      simp only [searchCandidates] at hr
      by_cases ht : t = tenant_id
      · rw [if_pos ht] at hr
        cases hemb : memory.embedding with
        | none => simp only [hemb] at hr; exact ih hrest r hr
        | some v =>
            simp only [hemb] at hr
            by_cases hv : v.isEmpty = true
            · rw [if_pos hv] at hr; exact ih hrest r hr
            · rw [if_neg hv] at hr
              rcases List.mem_cons.mp hr with hEq | hmem
              · rw [hEq]; exact ht ▸ hmt
              · exact ih hrest r hmem
      · rw [if_neg ht] at hr; exact ih hrest r hr

/-- A Python slice never invents elements. -/
theorem pySlice_subset {α : Type} (l : List α) (start stop : Int) :
    pySlice l start stop ⊆ l := by
  intro x hx
  unfold pySlice at hx
  exact List.take_subset _ _ (List.drop_subset _ _ hx)

/-- `l[:stop]` never invents elements. -/
theorem pySliceTo_subset {α : Type} (l : List α) (stop : Int) :
    pySliceTo l stop ⊆ l := by
  intro x hx
  exact List.take_subset _ _ hx

/-- The optional-filters guard on search results never invents elements. -/
theorem applyFiltersOpt_subset (results : List SearchResult)
    (filters : Option Filters) : applyFiltersOpt results filters ⊆ results := by
  cases filters with
  | none => exact fun _ h => h
  | some f => exact fun _ hx => List.mem_of_mem_filter hx

/-- The optional-filters guard on memory lists never invents elements. -/
theorem applyFiltersOptM_subset (memories : List Memory)
    (filters : Option Filters) :
    applyFiltersOptM memories filters ⊆ memories := by
  cases filters with
  | none => exact fun _ h => h
  | some f => exact fun _ hx => List.mem_of_mem_filter hx

/-- Every memory returned by `list` belongs to the queried tenant (given
key/field agreement of the store). -/
theorem list_tenant {st : InMemoryBackend} {tenant_id : String}
    {limit offset : Int} {filters : Option Filters} {x : Memory}
    (hwf : st.WF) (hx : x ∈ st.list tenant_id limit offset filters) :
    x.tenant_id = tenant_id := by
  unfold InMemoryBackend.list at hx
  have h1 : x ∈ (st.memories.filter (fun e => e.1.2 = tenant_id)).map Prod.snd :=
    applyFiltersOptM_subset _ _ (pySlice_subset _ _ _ hx)
  rw [List.mem_map] at h1
  obtain ⟨e, he, hex⟩ := h1
  rw [List.mem_filter] at he
  obtain ⟨hmem, hten⟩ := he
  have := (hwf e hmem).2
  rw [hex] at this
  rw [this]
  exact of_decide_eq_true hten

/-- Removing an entry keyed under tenant `A` does not change the set of
entries keyed under a different tenant `B`. -/
theorem filter_tenant_dictPop (l : List ((Nat × String) × Memory))
    (memory_id : Nat) (A B : String) (hB : B ≠ A) :
    (dictPop l (memory_id, A)).filter (fun e => e.1.2 = B) =
      l.filter (fun e => e.1.2 = B) := by
  induction l with
  | nil => rfl
  | cons e rest ih =>
      obtain ⟨⟨mid, t⟩, memory⟩ := e
      simp only [dictPop]
      by_cases hk : ((mid, t) : Nat × String) = (memory_id, A)
      · rw [if_pos hk]
        have ht : t = A := congrArg Prod.snd hk
        subst ht
        simp only [List.filter_cons]
        rw [if_neg (by simp; exact fun h => hB h.symm)]
      · rw [if_neg hk]
        simp only [List.filter_cons, ih]

/-- C1: a memory stored under tenant `A` is never reachable through a
different tenant `B`: `get` under `B` never returns it (even at the same
id), `search` under `B` never ranks it, `list` under `B` never contains it,
and `count` under `B` does not count it (deleting the memory leaves every
`count` under `B` unchanged). -/
theorem tenant_isolation (st : InMemoryBackend) (m : Memory) (A B : String)
    (hwf : st.WF) (hin : ((m.id, A), m) ∈ st.memories)
    (hA : m.tenant_id = A) (hB : B ≠ A) :
    (∀ query_id : Nat, st.get query_id B ≠ some m) ∧
    (∀ (q : List ℚ) (limit : Int) (filters : Option Filters),
      m ∉ (st.search q B limit filters).map SearchResult.memory) ∧
    (∀ (limit offset : Int) (filters : Option Filters),
      m ∉ st.list B limit offset filters) ∧
    (∀ filters : Option Filters,
      (st.delete m.id A).count B filters = st.count B filters) := by
  have hBm : m.tenant_id ≠ B := fun h => hB ((hA.symm.trans h).symm)
  refine ⟨?_, ?_, ?_, ?_⟩
  · intro query_id hq
    have hq' : dictGet st.memories (query_id, B) = some m := hq
    exact hBm (hwf _ (dictGet_mem hq')).2
  · intro q limit filters hmem
    rw [List.mem_map] at hmem
    obtain ⟨r, hr, hrm⟩ := hmem
    have hr1 : r ∈ st.searchRanked q B filters := pySliceTo_subset _ _ hr
    have hr2 : r ∈ searchCandidates st.memories q B := by
      unfold InMemoryBackend.searchRanked sortByScoreDesc at hr1
      rw [List.mem_mergeSort] at hr1
      exact applyFiltersOpt_subset _ _ hr1
    have hwf2 : ∀ e ∈ st.memories, e.2.tenant_id = e.1.2 :=
      fun e he => (hwf e he).2
    have hten := searchCandidates_tenant q B st.memories hwf2 r hr2
    rw [hrm] at hten
    exact hBm hten
  · intro limit offset filters hmem
    exact hBm (list_tenant hwf hmem)
  · intro filters
    have hfil := filter_tenant_dictPop st.memories m.id A B hB
    cases filters with
    | none => simp [InMemoryBackend.delete, InMemoryBackend.count, hfil]
    | some f => simp [InMemoryBackend.delete, InMemoryBackend.count, hfil]

/-- Witness for C1: one memory under tenant `"A"`, queried under `"B"`. -/
theorem tenant_isolation_witness :
    stW.get 1 "B" ≠ some memW ∧
    memW ∉ (stW.search [1] "B" 10 none).map SearchResult.memory ∧
    memW ∉ stW.list "B" 100 0 none ∧
    (stW.delete 1 "A").count "B" none = stW.count "B" none := by
  have h := tenant_isolation stW memW "A" "B"
    (by unfold InMemoryBackend.WF; decide) (by decide) rfl (by decide)
  exact ⟨h.1 1, h.2.1 [1] 10 none, h.2.2.1 100 0 none, h.2.2.2 none⟩

/-- C4 amended: `search` returns at most `limit` results for every
`limit ≥ 0`, and exactly the empty result set for `limit = 0`; but for a
negative `limit` Python slicing `results[:limit]` drops the last `|limit|`
ranked results instead of returning the empty set. -/
theorem search_limit_spec (st : InMemoryBackend) (q : List ℚ)
    (tenant_id : String) (limit : Int) (filters : Option Filters) :
    (0 ≤ limit → ((st.search q tenant_id limit filters).length : Int) ≤ limit) ∧
    (limit = 0 → st.search q tenant_id limit filters = []) ∧
    (limit < 0 → (st.search q tenant_id limit filters).length =
      (((st.searchRanked q tenant_id filters).length : Int) + limit).toNat) := by
  refine ⟨?_, ?_, ?_⟩
  · intro h
    unfold InMemoryBackend.search pySliceTo
    rw [List.length_take]
    unfold pyClampIndex
    rw [if_neg (not_lt.mpr h)]
    omega
  · intro h
    subst h
    unfold InMemoryBackend.search pySliceTo
    have hz : pyClampIndex ((st.searchRanked q tenant_id filters).length) 0 = 0 := by
      simp [pyClampIndex]
    rw [hz, List.take_zero]
  · intro h
    unfold InMemoryBackend.search pySliceTo
    rw [List.length_take]
    unfold pyClampIndex
    rw [if_pos h]
    omega

/-- C4 counterexample: on a backend with two embedded memories, a search
with `limit = -1 ≤ 0` returns one result, not the empty result set, because
`results[:-1]` drops only the last ranked result. -/
theorem search_limit_counterexample :
    (-1 : Int) ≤ 0 ∧ stS.search [1] "t" (-1) none ≠ [] := by
  have hcand : (searchCandidates stS.memories [1] "t").length = 2 := by
    simp [stS, memS1, memS2, searchCandidates]
  have hrank : (stS.searchRanked [1] "t" none).length = 2 := by
    unfold InMemoryBackend.searchRanked sortByScoreDesc
    simp only [List.length_mergeSort]
    exact hcand
  refine ⟨by norm_num, ?_⟩
  have hlen : (stS.search [1] "t" (-1) none).length = 1 := by
    unfold InMemoryBackend.search pySliceTo
    rw [List.length_take, hrank]
    decide
  intro h
  rw [h] at hlen
  simp at hlen

/-- Witness for the amended C4 on the two-memory backend: `limit = 0` is
empty, `limit = 5` is within bound, `limit = -1` follows slice semantics. -/
theorem search_limit_spec_witness :
    stS.search [1] "t" 0 none = [] ∧
    ((stS.search [1] "t" 5 none).length : Int) ≤ 5 ∧
    (stS.search [1] "t" (-1) none).length =
      (((stS.searchRanked [1] "t" none).length : Int) + (-1)).toNat :=
  ⟨(search_limit_spec stS [1] "t" 0 none).2.1 rfl,
   (search_limit_spec stS [1] "t" 5 none).1 (by norm_num),
   (search_limit_spec stS [1] "t" (-1) none).2.2 (by norm_num)⟩

end MemoryCore
